import Mathlib

/-!
A shallow embedding of the WorldSeedr procedural layout generator
(src/Source/WorldSeedr.ts) together with proofs about the claims of its
specification.

Modelling conventions:
* All JavaScript numbers that the engine manipulates (coordinates, sizes,
  spacing amounts, percentage weights, limits) are embedded as integers (ℤ);
  every concrete value appearing in the repository's schemas and in the
  spec's examples is an integer.
* The injected random source (a function returning a real in [0,1)) is
  embedded as a list of explicit fractions (RandVal, a numerator/denominator
  pair); every call of the source consumes the head of the list (an exhausted
  list yields 0).  Both library uses of the source have the shape
  Math.floor(random() * k) + m, which is computed exactly on fractions by
  floorScale below.
* Failures are explicit: the two deliberate exceptions thrown by generate and
  the places where the JavaScript would crash with a TypeError (reading a
  property of undefined) are both modelled with an Except result; loops and
  recursion are modelled with an explicit fuel parameter, fuel exhaustion
  being a distinguished error (JsError.fuelOut) so that termination behaviour
  is observable.
* Mutation is made explicit: the cursor position and the random stream are
  threaded through every function; the generatedCommands accumulator (the
  only other instance state the generation code touches) is threaded through
  generateFull, the only function whose source reads or writes it.
* The reserved word forced one renaming: the JavaScript property named
  "type" appears here as the field ctype.
-/

namespace WorldSeedr

/-- One output of the injected random number source: the fraction num/den,
meant to lie in [0,1).  JavaScript floats are rationals, so a fraction pair
represents any actual output exactly. -/
structure RandVal where
  num : ℤ
  den : ℤ
deriving DecidableEq, Repr

/-- The stream of outputs of the injected random source, consumed in order. -/
abbrev RNG := List RandVal

/-- Consume one output of the random source (an exhausted stream yields 0,
a modelling default that no claim depends on). -/
def nextRand : RNG → RandVal × RNG
  | [] => (⟨0, 1⟩, [])
  | r :: rest => (r, rest)

/-- Math.floor(r * k) for a fraction r = num/den: exact floor division. -/
def floorScale (r : RandVal) (k : ℤ) : ℤ := (r.num * k).fdiv r.den

/-- Source randomPercentage: Math.floor(this.random() * 100) + 1, a number
in [1, 100]. -/
def randomPercentage (rng : RNG) : ℤ × RNG :=
  let (r, rng') := nextRand rng
  (floorScale r 100 + 1, rng')

/-- Source randomBetween: Math.floor(this.random() * (1 + max - min)) + min,
a number in [min, max]. -/
def randomBetween (min max : ℤ) (rng : RNG) : ℤ × RNG :=
  let (r, rng') := nextRand rng
  (floorScale r (1 + max - min) + min, rng')

/-- A bounding box (source IPosition geometry): top and right are the
numerically larger edges under the coordinate convention. -/
structure Pos where
  top : ℤ
  right : ℤ
  bottom : ℤ
  left : ℤ
deriving DecidableEq, Repr

/-- A direction name, one of the four strings the source stores in
directionNames.  Unrecognized direction strings never reach the direction
switches in a typed model; where the source tolerates an absent direction the
embedding uses Option Dir. -/
inductive Dir : Type where
  | top
  | right
  | bottom
  | left
deriving DecidableEq, Repr

/-- Source directionOpposites: the constant listing of direction opposites. -/
def directionOpposites : Dir → Dir
  | .top => .bottom
  | .right => .left
  | .bottom => .top
  | .left => .right

/-- Errors of the model: the two Error objects generate throws, a TypeError
standing for any place the JavaScript would crash reading a property of
undefined, and fuel exhaustion (the model's explicit stand-in for a loop or
recursion that has not yet finished). -/
inductive JsError : Type where
  | schemaNotFound (name : String)
  | emptyContents (name : String)
  | typeError
  | fuelOut
deriving DecidableEq, Repr

/-- A dynamic value stored in an arguments object.  undef models a JavaScript
undefined written into a property by copySchemaArguments. -/
inductive ArgVal : Type where
  | num (n : ℤ)
  | str (s : String)
  | undefVal
deriving DecidableEq, Repr

/-- A plain arguments object: an association list of properties. -/
abbrev ArgsObj := List (String × ArgVal)

/-- One entry of a weighted-alternative arguments array: .percent plus the
.values object that parseChoice extracts from the chosen entry. -/
structure WeightedArgs where
  percent : ℤ
  values : ArgsObj
deriving DecidableEq, Repr

/-- The .arguments of a child reference: absent, a literal object, or an
Array of weighted alternatives (detected with instanceof Array). -/
inductive ChildArgs : Type where
  | none
  | obj (a : ArgsObj)
  | weighted (l : List WeightedArgs)
deriving DecidableEq, Repr

/-- A .sizing override on a child reference: optional width and height. -/
structure SizingOverride where
  width : Option ℤ := Option.none
  height : Option ℤ := Option.none
deriving DecidableEq, Repr

/-- A .stretch rule on a child reference (truthiness of .width/.height). -/
structure StretchSpec where
  width : Bool := false
  height : Bool := false
deriving DecidableEq, Repr

/-- The value field of a weighted spacing alternative or the min/max/units
spacing object (source IPossibilitySpacing; units falls back to 1, as does a
falsy units of 0, via the source's units || 1). -/
structure PossibilitySpacingObj where
  min : ℤ
  max : ℤ
  units : Option ℤ := Option.none
deriving DecidableEq, Repr

/-- The value carried by one weighted spacing alternative: parseSpacingObject
accepts either a plain Number or a min/max/units object. -/
inductive SpacingValue : Type where
  | num (n : ℤ)
  | obj (o : PossibilitySpacingObj)
deriving DecidableEq, Repr

/-- One weighted spacing alternative: .percent plus .value. -/
structure SpacingChoice where
  percent : ℤ
  value : SpacingValue
deriving DecidableEq, Repr

/-- The polymorphic spacing specification of a schema (source
number | number[] | weighted Object[] | IPossibilitySpacing, dispatched at
runtime on .constructor). -/
inductive Spacing : Type where
  | num (n : ℤ)
  | range (lo hi : ℤ)
  | choices (l : List SpacingChoice)
  | obj (o : PossibilitySpacingObj)
deriving DecidableEq, Repr

/-- A child reference inside a schema's contents (source IPossibilityChild
plus the optional fields the code reads: source, percent, sizing, arguments,
stretch).  The JavaScript property named type appears as ctype. -/
structure PossibilityChild where
  title : String
  ctype : String
  source : Option String := Option.none
  percent : ℤ := 0
  sizing : Option SizingOverride := Option.none
  arguments : ChildArgs := ChildArgs.none
  stretch : Option StretchSpec := Option.none
deriving DecidableEq, Repr

/-- A schema's contents record (source IPossibilityContents plus argumentMap
and limit, which the code reads).  mode stays a String because the mode
switch silently ignores unrecognized values; snap is an Option Dir because
the snap switch treats an absent and an unrecognized value identically.
limit models the optional numeric limit, 0 standing for the absent (falsy)
value exactly as in the source's contents.limit && ... check. -/
structure Contents where
  direction : Option Dir := Option.none
  mode : String := ""
  snap : Option Dir := Option.none
  children : List PossibilityChild := []
  spacing : Option Spacing := Option.none
  argumentMap : Option (List (String × String)) := Option.none
  limit : ℤ := 0
deriving DecidableEq, Repr

/-- A possibility schema (source IPossibility); contents is optional because
generate explicitly checks for its absence. -/
structure Possibility where
  width : ℤ
  height : ℤ
  contents : Option Contents := Option.none
deriving DecidableEq, Repr

/-- The possibilities registry: name-to-schema lookup (source
IPossibilityContainer, read with this.possibilities[name]). -/
abbrev PossContainer := List (String × Possibility)

/-- Registry lookup, this.possibilities[name]. -/
def lookupPoss : PossContainer → String → Option Possibility
  | [], _ => Option.none
  | (k, v) :: rest, name => if k = name then some v else lookupPoss rest name

/-- The scalar fields of a parsed choice (source IChoice without the nested
.contents): title, type (as ctype), arguments, the two sizes and the four
edges. -/
structure ChoiceBase where
  title : String
  ctype : String
  arguments : ChildArgs
  width : ℤ
  height : ℤ
  top : ℤ
  right : ℤ
  bottom : ℤ
  left : ℤ
deriving DecidableEq, Repr

/-- A parsed choice (source IChoice): its scalar fields plus the optional
nested generation result that Certain and Repeat mode attach to
non-terminal children.  The nested result is a bounding box paired with the
ordered children list, exactly what getPositionExtremes builds. -/
inductive Choice : Type where
  | mk (base : ChoiceBase) (contents : Option (Pos × List Choice))

/-- A generation result (the object getPositionExtremes returns): the extreme
bounding box plus the ordered children. -/
abbrev GenRes := Pos × List Choice

/-- The scalar fields of a parsed choice. -/
def Choice.base : Choice → ChoiceBase
  | .mk b _ => b

/-- The nested generation result attached to a non-terminal parsed choice. -/
def Choice.contents : Choice → Option GenRes
  | .mk _ c => c

/-- The type property of a parsed choice. -/
def Choice.ctype (c : Choice) : String := c.base.ctype

/-- The title property of a parsed choice. -/
def Choice.title (c : Choice) : String := c.base.title

/-- The bounding box of a parsed choice, read from its four edge fields (used
where generateFull passes a generated command back to generate as the
position to generate inside). -/
def Choice.toPos (c : Choice) : Pos :=
  ⟨c.base.top, c.base.right, c.base.bottom, c.base.left⟩

/-- The accumulation loop inside chooseAmong: add each .percent to the
running sum and return the first item at which the sum reaches the drawn
percentage; falling off the end returns undefined.  The source reads the
field .percent off untyped objects, so the embedding takes the percent
accessor as a parameter (children, weighted argument alternatives and
weighted spacing alternatives all pass their own). -/
def chooseAmongLoop {α : Type} (percentOf : α → ℤ) : List α → ℤ → ℤ → Option α
  | [], _, _ => Option.none
  | c :: rest, sum, choice =>
    if choice ≤ sum + percentOf c then some c
    else chooseAmongLoop percentOf rest (sum + percentOf c) choice

/-- Source chooseAmong: undefined on an empty list, the sole element of a
singleton (without drawing), otherwise one randomPercentage draw fed to the
accumulation loop. -/
def chooseAmong {α : Type} (percentOf : α → ℤ) (choices : List α) (rng : RNG) :
    Option α × RNG :=
  match choices with
  | [] => (Option.none, rng)
  | [c] => (some c, rng)
  | _ =>
    let pr := randomPercentage rng
    (chooseAmongLoop percentOf choices 0 pr.1, pr.2)

/-- Source doesChoiceFit: whether a choice's fixed width and height fit
within a width and height.  The source passes an object and reads its .width
and .height; the embedding passes the two numbers directly. -/
def doesChoiceFit (cWidth cHeight width height : ℤ) : Bool :=
  decide (cWidth ≤ width) && decide (cHeight ≤ height)

/-- Source choiceFitsPosition: the fit check against a position's remaining
width (right - left) and height (top - bottom). -/
def choiceFitsPosition (choice : ChoiceBase) (position : Pos) : Bool :=
  doesChoiceFit choice.width choice.height (position.right - position.left)
    (position.top - position.bottom)

/-- The filter inside chooseAmongPosition: keep the children whose referenced
schema fits the remaining width and height.  Looking up a title that is
absent from the registry makes the JavaScript predicate crash reading .width
of undefined, hence the Except. -/
def filterFitting (poss : PossContainer) :
    List PossibilityChild → ℤ → ℤ → Except JsError (List PossibilityChild)
  | [], _, _ => .ok []
  | c :: rest, width, height =>
    match lookupPoss poss c.title with
    | Option.none => .error .typeError
    | some schema =>
      match filterFitting poss rest width height with
      | .error e => .error e
      | .ok rest' =>
        .ok (if doesChoiceFit schema.width schema.height width height
             then c :: rest' else rest')

/-- Source chooseAmongPosition: filter the choices to those whose schema fits
the position's remaining size, then delegate to chooseAmong on .percent. -/
def chooseAmongPosition (poss : PossContainer) (choices : List PossibilityChild)
    (position : Pos) (rng : RNG) :
    Except JsError (Option PossibilityChild × RNG) :=
  let width := position.right - position.left
  let height := position.top - position.bottom
  match filterFitting poss choices width height with
  | .error e => .error e
  | .ok fitting => .ok (chooseAmong PossibilityChild.percent fitting rng)

/-- Source positionIsNotEmpty: open room horizontally (left < right) for the
left/right directions, vertically (top > bottom) otherwise.  An absent
direction falls into the else branch exactly as in the source's string
comparison. -/
def positionIsNotEmpty (position : Pos) (direction : Option Dir) : Bool :=
  match direction with
  | some .right => decide (position.left < position.right)
  | some .left => decide (position.left < position.right)
  | _ => decide (position.bottom < position.top)

/-- Source parseSpacingObject on the two value shapes it receives: a plain
Number returns itself; a min/max/units object draws a uniform multiple of
units (units falls back to 1 when absent or 0, via units || 1).  The
JavaScript divides min and max by units with float division; the embedding
uses floor division, which is exact whenever units divides min and max (the
shape's intended use: rounding the draw to multiples of units).  No claim
exercises a non-divisible combination. -/
def parseSpacingObject (spacing : SpacingValue) (rng : RNG) : ℤ × RNG :=
  match spacing with
  | .num n => (n, rng)
  | .obj o =>
    let units := match o.units with
      | Option.none => 1
      | some u => if u = 0 then 1 else u
    let r := randomBetween (o.min.fdiv units) (o.max.fdiv units) rng
    (r.1 * units, r.2)

/-- Source parseSpacing: a falsy spacing (undefined, or the number 0) yields
0; a two-number Array draws in the range; an Array of weighted alternatives
draws one with chooseAmong and uses its .value (a draw of undefined crashes
reading .value, hence the Except); an object goes to parseSpacingObject; a
plain number returns itself. -/
def parseSpacing (spacing : Option Spacing) (rng : RNG) :
    Except JsError (ℤ × RNG) :=
  match spacing with
  | Option.none => .ok (0, rng)
  | some (.num n) => if n = 0 then .ok (0, rng) else .ok (n, rng)
  | some (.range lo hi) =>
    let r := randomBetween lo hi rng
    .ok (parseSpacingObject (.num r.1) r.2)
  | some (.choices l) =>
    match chooseAmong SpacingChoice.percent l rng with
    | (Option.none, _) => .error .typeError
    | (some c, rng') => .ok (parseSpacingObject c.value rng')
  | some (.obj o) => .ok (parseSpacingObject (.obj o) rng)

/-- Source shrinkPositionByChild: move the cursor's trailing edge in the
direction to the placed child's leading edge offset by the parsed spacing; an
absent direction matches no case and leaves the cursor (and the random
stream) untouched. -/
def shrinkPositionByChild (position : Pos) (child : ChoiceBase)
    (direction : Option Dir) (spacing : Option Spacing) (rng : RNG) :
    Except JsError (Pos × RNG) :=
  match direction with
  | some .top =>
    match parseSpacing spacing rng with
    | .error e => .error e
    | .ok (s, rng') => .ok ({ position with bottom := child.top + s }, rng')
  | some .right =>
    match parseSpacing spacing rng with
    | .error e => .error e
    | .ok (s, rng') => .ok ({ position with left := child.right + s }, rng')
  | some .bottom =>
    match parseSpacing spacing rng with
    | .error e => .error e
    | .ok (s, rng') => .ok ({ position with top := child.bottom - s }, rng')
  | some .left =>
    match parseSpacing spacing rng with
    | .error e => .error e
    | .ok (s, rng') => .ok ({ position with right := child.left - s }, rng')
  | Option.none => .ok (position, rng)

/-- Source movePositionBySpacing: parse the spacing once, then shift both
edges of the direction's axis by it (only Multiple mode calls this, and only
with a present direction). -/
def movePositionBySpacing (position : Pos) (direction : Dir)
    (spacing : Option Spacing) (rng : RNG) : Except JsError (Pos × RNG) :=
  match parseSpacing spacing rng with
  | .error e => .error e
  | .ok (space, rng') =>
    match direction with
    | .top =>
      .ok ({ position with top := position.top + space,
                           bottom := position.bottom + space }, rng')
    | .right =>
      .ok ({ position with left := position.left + space,
                           right := position.right + space }, rng')
    | .bottom =>
      .ok ({ position with top := position.top - space,
                           bottom := position.bottom - space }, rng')
    | .left =>
      .ok ({ position with left := position.left - space,
                           right := position.right - space }, rng')

/-- The fold inside getPositionExtremes: widen the running box to the most
extreme edges of each further child. -/
def extremesGo : List Choice → Pos → Pos
  | [], p => p
  | c :: rest, p =>
    extremesGo rest
      ⟨max p.top c.base.top, max p.right c.base.right,
       min p.bottom c.base.bottom, min p.left c.base.left⟩

/-- Source getPositionExtremes: undefined for an absent or empty children
Array; otherwise the box seeded from the first child and widened over the
rest, paired with the children.  (The source also stops early at a child
that is an empty object; a parsed choice always carries its fields, so that
degenerate record is not representable here and the check is vacuous.) -/
def getPositionExtremes : Option (List Choice) → Option GenRes
  | Option.none => Option.none
  | some [] => Option.none
  | some (c :: rest) =>
    some (extremesGo rest ⟨c.base.top, c.base.right, c.base.bottom, c.base.left⟩,
          c :: rest)

/-- Set a property on a plain arguments object (JavaScript property
assignment: replace an existing key, otherwise append). -/
def setArg : ArgsObj → String → ArgVal → ArgsObj
  | [], k, v => [(k, v)]
  | (k', v') :: rest, k, v =>
    if k' = k then (k, v) :: rest else (k', v') :: setArg rest k v

/-- The source's if (!output.arguments) output.arguments = \x7b\x7d guard. -/
def ensureArgs : ChildArgs → ChildArgs
  | ChildArgs.none => .obj []
  | a => a

/-- Property assignment on a resolved arguments value.  Writing onto a
weighted Array would attach a non-index property to the Array object in
JavaScript; nothing later reads such a property, so the embedding leaves the
value unchanged.  Callers always ensure the arguments exist first, so the
none case is unreachable. -/
def setArgOn (a : ChildArgs) (k : String) (v : ArgVal) : ChildArgs :=
  match a with
  | .obj l => .obj (setArg l k v)
  | .weighted l => .weighted l
  | ChildArgs.none => ChildArgs.none

/-- Dynamic property read choice[i] on a child reference, as ArgVal (absent
or unmodelled properties read as undefined, exactly what the JavaScript
yields). -/
def childFieldVal (c : PossibilityChild) (k : String) : ArgVal :=
  if k = "title" then .str c.title
  else if k = "type" then .str c.ctype
  else if k = "percent" then .num c.percent
  else if k = "source" then
    match c.source with
    | some s => .str s
    | Option.none => .undefVal
  else .undefVal

/-- Source copySchemaArguments: for every key of the schema contents'
argumentMap, copy choice[key] into arguments[map[key]], creating the
arguments object first if absent. -/
def copySchemaArguments (map : Option (List (String × String)))
    (choice : PossibilityChild) (a : ChildArgs) : ChildArgs :=
  match map with
  | Option.none => a
  | some m =>
    m.foldl (fun acc kv => setArgOn acc kv.2 (childFieldVal choice kv.1))
      (ensureArgs a)

/-- The arguments expression in parseChoice's output literal: an Array draws
one weighted alternative and uses its .values (a draw of undefined crashes
reading .values); anything else is used verbatim. -/
def resolveChoiceArguments (a : ChildArgs) (rng : RNG) :
    Except JsError (ChildArgs × RNG) :=
  match a with
  | .weighted l =>
    match chooseAmong WeightedArgs.percent l rng with
    | (Option.none, _) => .error .typeError
    | (some w, rng') => .ok (.obj w.values, rng')
  | other => .ok (other, rng)

/-- Source ensureSizingOnChoice, for one dimension: the sizing override wins
when present, otherwise the schema's fixed measurement. -/
def sizingFor (override : Option SizingOverride) (schemaSize : ℤ)
    (pick : SizingOverride → Option ℤ) : ℤ :=
  match override with
  | some s =>
    match pick s with
    | some v => v
    | Option.none => schemaSize
  | Option.none => schemaSize

/-- The leading-edge step of parseChoice, expanded per direction:
output[direction] = output[directionOpposites[direction]] +
output[directionSizing[direction]].  An absent direction writes to a
property named "undefined", observable nowhere, so the box is unchanged. -/
def applyLeadingEdge (b : ChoiceBase) (direction : Option Dir) : ChoiceBase :=
  match direction with
  | some .top => { b with top := b.bottom + b.height }
  | some .right => { b with right := b.left + b.width }
  | some .bottom => { b with bottom := b.top + b.height }
  | some .left => { b with left := b.right + b.width }
  | Option.none => b

/-- The snap switch of parseChoice: recompute the opposite edge from the
size so the box is flush against the snap edge; unrecognized or absent snap
does nothing. -/
def applySnap (snap : Option Dir) (b : ChoiceBase) : ChoiceBase :=
  match snap with
  | some .top => { b with bottom := b.top - b.height }
  | some .right => { b with left := b.right - b.width }
  | some .bottom => { b with top := b.bottom + b.height }
  | some .left => { b with right := b.left + b.width }
  | Option.none => b

/-- The stretch step of parseChoice: make the box span the current remaining
position on each stretched axis, recompute the size, and publish it into the
arguments. -/
def applyStretch (choice : PossibilityChild) (position : Pos)
    (b : ChoiceBase) : ChoiceBase :=
  match choice.stretch with
  | Option.none => b
  | some s =>
    let b := { b with arguments := ensureArgs b.arguments }
    let b :=
      if s.width then
        let width := position.right - position.left
        { b with left := position.left, right := position.right,
                 width := width,
                 arguments := setArgOn b.arguments "width" (.num width) }
      else b
    if s.height then
      let height := position.top - position.bottom
      { b with top := position.top, bottom := position.bottom,
               height := height,
               arguments := setArgOn b.arguments "height" (.num height) }
    else b

/-- Source parseChoice: resolve the referenced schema (a title absent from
the registry, or a schema without contents, crashes in JavaScript when its
properties are read), resolve the arguments, seed sizes from sizing override
or schema, seed all four edges from the cursor position, compute the leading
edge along the direction, apply the schema's snap, apply the child's
stretch, and finally apply the schema's argumentMap.  The output's type is
the child reference's own type. -/
def parseChoice (poss : PossContainer) (choice : PossibilityChild)
    (position : Pos) (direction : Option Dir) (rng : RNG) :
    Except JsError (ChoiceBase × RNG) :=
  match lookupPoss poss choice.title with
  | Option.none => .error .typeError
  | some schema =>
    match schema.contents with
    | Option.none => .error .typeError
    | some schemaContents =>
      match resolveChoiceArguments choice.arguments rng with
      | .error e => .error e
      | .ok (args, rng') =>
        let b : ChoiceBase :=
          { title := choice.title
            ctype := choice.ctype
            arguments := args
            width := sizingFor choice.sizing schema.width SizingOverride.width
            height := sizingFor choice.sizing schema.height SizingOverride.height
            top := position.top
            right := position.right
            bottom := position.bottom
            left := position.left }
        let b := applyLeadingEdge b direction
        let b := applySnap schemaContents.snap b
        let b := applyStretch choice position b
        let b := { b with
          arguments := copySchemaArguments schemaContents.argumentMap choice
            b.arguments }
        .ok (b, rng')

/-- Source parseChoiceFinal: resolve the child's source schema (an absent
source name, a source absent from the registry, or a source schema without
contents crashes in JavaScript), pin the box to the exact current position,
take the source schema's fixed width and height, mark the output Known, and
apply the source schema's argumentMap.  The parent contents and the
direction are parameters the source never reads. -/
def parseChoiceFinal (poss : PossContainer) (parent : Contents)
    (choice : PossibilityChild) (position : Pos) (direction : Option Dir) :
    Except JsError ChoiceBase :=
  match choice.source with
  | Option.none => .error .typeError
  | some src =>
    match lookupPoss poss src with
    | Option.none => .error .typeError
    | some schema =>
      match schema.contents with
      | Option.none => .error .typeError
      | some sc =>
        let out : ChoiceBase :=
          { title := choice.title
            ctype := "Known"
            arguments := choice.arguments
            width := schema.width
            height := schema.height
            top := position.top
            right := position.right
            bottom := position.bottom
            left := position.left }
        .ok { out with
          arguments := copySchemaArguments sc.argumentMap choice out.arguments }

/-- The type of the recursive generate entry point as the mode strategies
see it (the knot is tied with an explicit fuel parameter in generate
below). -/
abbrev GenFn := String → Pos → RNG → Except JsError (Option GenRes × RNG)

/-- Source generateChild (Random mode): a weighted draw among the fitting
children, undefined when nothing fitting is chosen, otherwise the parsed
choice. -/
def generateChild (poss : PossContainer) (contents : Contents) (position : Pos)
    (direction : Option Dir) (rng : RNG) :
    Except JsError (Option ChoiceBase × RNG) :=
  match chooseAmongPosition poss contents.children position rng with
  | .error e => .error e
  | .ok (Option.none, rng') => .ok (Option.none, rng')
  | .ok (some choice, rng') =>
    match parseChoice poss choice position direction rng' with
    | .error e => .error e
    | .ok (b, rng'') => .ok (some b, rng'')

/-- The while loop of generateChildrenRandom, one fuel per iteration: while
the cursor has room, draw and parse a fitting child (stopping and keeping
the accumulated children when nothing is chosen), shrink the cursor, append
the child, and discard everything (return undefined) as soon as the
accumulated count exceeds a configured (nonzero) limit. -/
def randomGo (poss : PossContainer) (contents : Contents)
    (direction : Option Dir) (spacing : Option Spacing) :
    Nat → List Choice → Pos → RNG →
    Except JsError (Option (List Choice) × Pos × RNG)
  | 0, _, _, _ => .error .fuelOut
  | Nat.succ fuel, children, position, rng =>
    if positionIsNotEmpty position direction then
      match generateChild poss contents position direction rng with
      | .error e => .error e
      | .ok (Option.none, rng') => .ok (some children, position, rng')
      | .ok (some b, rng') =>
        match shrinkPositionByChild position b direction spacing rng' with
        | .error e => .error e
        | .ok (position', rng'') =>
          let children' := children ++ [Choice.mk b Option.none]
          if contents.limit ≠ 0 ∧ contents.limit < (children'.length : ℤ) then
            .ok (Option.none, position', rng'')
          else randomGo poss contents direction spacing fuel children' position' rng''
    else .ok (some children, position, rng)

/-- Source generateChildrenRandom: the loop above started with an empty
children Array. -/
def generateChildrenRandom (poss : PossContainer) (loopFuel : Nat)
    (contents : Contents) (position : Pos) (direction : Option Dir)
    (spacing : Option Spacing) (rng : RNG) :
    Except JsError (Option (List Choice) × Pos × RNG) :=
  randomGo poss contents direction spacing loopFuel [] position rng

/-- Source generateChildrenCertain as a fold over the children list: a Final
child goes through parseChoiceFinal and, notably, does not shrink the shared
cursor; any other child is parsed, a non-Known result gets the recursive
generation of its title attached as .contents, and the shared cursor is
shrunk by the child plus spacing.  (The source's trailing filter of
undefined entries is vacuous: neither parser returns undefined.) -/
def certainGo (poss : PossContainer) (gen : GenFn) (contents : Contents)
    (direction : Option Dir) (spacing : Option Spacing) :
    List PossibilityChild → Pos → RNG →
    Except JsError (List Choice × Pos × RNG)
  | [], position, rng => .ok ([], position, rng)
  | choice :: rest, position, rng =>
    if choice.ctype = "Final" then
      match parseChoiceFinal poss contents choice position direction with
      | .error e => .error e
      | .ok b =>
        match certainGo poss gen contents direction spacing rest position rng with
        | .error e => .error e
        | .ok (cs, position', rng') =>
          .ok (Choice.mk b Option.none :: cs, position', rng')
    else
      match parseChoice poss choice position direction rng with
      | .error e => .error e
      | .ok (b, rng') =>
        match (if b.ctype = "Known"
               then Except.ok ((Option.none : Option GenRes), rng')
               else gen b.title position rng') with
        | .error e => .error e
        | .ok (res, rng'') =>
          match shrinkPositionByChild position b direction spacing rng'' with
          | .error e => .error e
          | .ok (position', rng₃) =>
            match certainGo poss gen contents direction spacing rest position' rng₃ with
            | .error e => .error e
            | .ok (cs, position'', rng₄) =>
              .ok (Choice.mk b res :: cs, position'', rng₄)

/-- The while loop of generateChildrenRepeat, one fuel per iteration: while
the cursor has room, take the child at the wrapping index (an empty children
Array crashes in JavaScript reading .type of undefined), parse it (Final
children through parseChoiceFinal, others through parseChoice with the
recursive generation attached to non-Known results), then place it only if
it fits the remaining cursor — shrinking the cursor, appending, and
advancing the wrapping index — and otherwise stop, keeping what was placed
so far. -/
def repeatGo (poss : PossContainer) (gen : GenFn) (contents : Contents)
    (choices : List PossibilityChild) (direction : Option Dir)
    (spacing : Option Spacing) :
    Nat → Nat → List Choice → Pos → RNG →
    Except JsError (List Choice × Pos × RNG)
  | 0, _, _, _, _ => .error .fuelOut
  | Nat.succ fuel, i, children, position, rng =>
    if positionIsNotEmpty position direction then
      match choices[i]? with
      | Option.none => .error .typeError
      | some choice =>
        let parsed : Except JsError (ChoiceBase × Option GenRes × RNG) :=
          if choice.ctype = "Final" then
            match parseChoiceFinal poss contents choice position direction with
            | .error e => .error e
            | .ok b => .ok (b, Option.none, rng)
          else
            match parseChoice poss choice position direction rng with
            | .error e => .error e
            | .ok (b, rng') =>
              if b.ctype = "Known" then .ok (b, Option.none, rng')
              else
                match gen b.title position rng' with
                | .error e => .error e
                | .ok (res, rng'') => .ok (b, res, rng'')
        match parsed with
        | .error e => .error e
        | .ok (b, res, rng₂) =>
          if choiceFitsPosition b position then
            match shrinkPositionByChild position b direction spacing rng₂ with
            | .error e => .error e
            | .ok (position', rng₃) =>
              let i' := if choices.length ≤ i + 1 then 0 else i + 1
              repeatGo poss gen contents choices direction spacing fuel i'
                (children ++ [Choice.mk b res]) position' rng₃
          else .ok (children, position, rng₂)
    else .ok (children, position, rng)

/-- Source generateChildrenMultiple as a fold: each child is parsed against
the current cursor (parseChoice receives a copy, so parsing cannot move it),
and afterwards, when a direction is set, the shared cursor is translated by
the spacing, staggering subsequent children.  No fit check, no filter, no
recursion into generate. -/
def multipleGo (poss : PossContainer) (direction : Option Dir)
    (spacing : Option Spacing) :
    List PossibilityChild → Pos → RNG →
    Except JsError (List Choice × Pos × RNG)
  | [], position, rng => .ok ([], position, rng)
  | choice :: rest, position, rng =>
    match parseChoice poss choice position direction rng with
    | .error e => .error e
    | .ok (b, rng') =>
      match direction with
      | some d =>
        match movePositionBySpacing position d spacing rng' with
        | .error e => .error e
        | .ok (position', rng'') =>
          match multipleGo poss direction spacing rest position' rng'' with
          | .error e => .error e
          | .ok (cs, position'', rng₃) =>
            .ok (Choice.mk b Option.none :: cs, position'', rng₃)
      | Option.none =>
        match multipleGo poss direction spacing rest position rng' with
        | .error e => .error e
        | .ok (cs, position', rng'') =>
          .ok (Choice.mk b Option.none :: cs, position', rng'')

/-- Source generateChildren: take the contents (the callers have checked its
presence; a direct call without contents crashes reading .spacing), default
the spacing to 0 (contents.spacing || 0), let the contents' direction win
over the caller's (contents.direction || direction), dispatch on the mode —
an unrecognized mode leaves the children undefined — and wrap the outcome
with getPositionExtremes.  The source first merges the schema's own fields
over the caller's position; the merged object's four edges are exactly the
caller's (a schema has no edge fields), which is what the mode strategies
receive here. -/
def generateChildren (poss : PossContainer) (gen : GenFn) (loopFuel : Nat)
    (schema : Possibility) (position : Pos) (direction : Option Dir)
    (rng : RNG) : Except JsError (Option GenRes × RNG) :=
  match schema.contents with
  | Option.none => .error .typeError
  | some contents =>
    let spacing : Option Spacing :=
      some (match contents.spacing with
            | some s => s
            | Option.none => .num 0)
    let direction : Option Dir :=
      match contents.direction with
      | some d => some d
      | Option.none => direction
    let childrenRes : Except JsError (Option (List Choice) × Pos × RNG) :=
      match contents.mode with
      | "Random" =>
        randomGo poss contents direction spacing loopFuel [] position rng
      | "Certain" =>
        match certainGo poss gen contents direction spacing contents.children
            position rng with
        | .error e => .error e
        | .ok (cs, p, r) => .ok (some cs, p, r)
      | "Repeat" =>
        match repeatGo poss gen contents contents.children direction spacing
            loopFuel 0 [] position rng with
        | .error e => .error e
        | .ok (cs, p, r) => .ok (some cs, p, r)
      | "Multiple" =>
        match multipleGo poss direction spacing contents.children position rng with
        | .error e => .error e
        | .ok (cs, p, r) => .ok (some cs, p, r)
      | _ => .ok (Option.none, position, rng)
    match childrenRes with
    | .error e => .error e
    | .ok (children, _, rngOut) => .ok (getPositionExtremes children, rngOut)

/-- Source generate: look the name up (absent: the schema-not-found Error;
present without contents: the no-possible-outcomes Error), then generate the
children against a copy of the given position.  The fuel bounds the depth of
the recursive expansion and of the Repeat/Random loops; each level passes
its predecessor down, and exhaustion reports fuelOut. -/
def generate (poss : PossContainer) : Nat → String → Pos → RNG →
    Except JsError (Option GenRes × RNG)
  | 0, _, _, _ => .error .fuelOut
  | Nat.succ fuel, name, position, rng =>
    match lookupPoss poss name with
    | Option.none => .error (.schemaNotFound name)
    | some schema =>
      match schema.contents with
      | Option.none => .error (.emptyContents name)
      | some _ =>
        generateChildren poss (generate poss fuel) fuel schema position
          Option.none rng

/-- The mutable state generateFull touches: the random stream and the
generatedCommands accumulator (the scratch Array of the instance). -/
structure GenState where
  rand : RNG
  generatedCommands : List Choice

/-- The for loop of generateFull over a generated children Array: a Known
child is pushed onto the shared generatedCommands accumulator, a Random
child is recursively expanded (gf is generateFull at the next fuel level),
and any other type is silently skipped. -/
def generateFullGo (gf : Choice → GenState → Except JsError GenState) :
    List Choice → GenState → Except JsError GenState
  | [], st => .ok st
  | child :: rest, st =>
    if child.ctype = "Known" then
      generateFullGo gf rest
        { st with generatedCommands := st.generatedCommands ++ [child] }
    else if child.ctype = "Random" then
      match gf child st with
      | .error e => .error e
      | .ok st' => generateFullGo gf rest st'
    else generateFullGo gf rest st

/-- Source generateFull: generate the schema's title against the schema's
own box, return silently when the generation yields no result, and otherwise
walk the children with the loop above. -/
def generateFull (poss : PossContainer) : Nat → Choice → GenState →
    Except JsError GenState
  | 0, _, _ => .error .fuelOut
  | Nat.succ fuel, schema, st =>
    match generate poss fuel schema.title schema.toPos st.rand with
    | .error e => .error e
    | .ok (generated, rand') =>
      let st' : GenState := { st with rand := rand' }
      match generated with
      | Option.none => .ok st'
      | some (_, children) =>
        generateFullGo (generateFull poss fuel) children st'

/-- The instance state of a WorldSeedr object as far as generation is
concerned: the registry, the random source, and the generatedCommands
scratch Array.  The onPlacement callback is an external collaborator; what
runGeneratedCommands passes to it is returned explicitly below. -/
structure Seedr where
  possibilities : PossContainer
  rand : RNG
  generatedCommands : List Choice

/-- The public generate method on the instance state: the engine's generate
run against the instance's registry and random stream.  The generation code
reached from generate never references the generatedCommands Array (only
generateFull does), so the accumulator passes through untouched. -/
def Seedr.generate (fuel : Nat) (w : Seedr) (name : String) (position : Pos) :
    Except JsError (Option GenRes × Seedr) :=
  match WorldSeedr.generate w.possibilities fuel name position w.rand with
  | .error e => .error e
  | .ok (r, rand') => .ok (r, { w with rand := rand' })

/-- The public generateFull method on the instance state. -/
def Seedr.generateFull (fuel : Nat) (w : Seedr) (schema : Choice) :
    Except JsError Seedr :=
  match WorldSeedr.generateFull w.possibilities fuel schema
      ⟨w.rand, w.generatedCommands⟩ with
  | .error e => .error e
  | .ok st => .ok { w with rand := st.rand, generatedCommands := st.generatedCommands }

/-- Source clearGeneratedCommands: reset the accumulator to an empty
Array. -/
def clearGeneratedCommands (w : Seedr) : Seedr :=
  { w with generatedCommands := [] }

/-- Source runGeneratedCommands: call onPlacement on the generatedCommands
Array.  The callback is external, so the embedding returns the Array that is
passed to it together with the instance state afterwards, which the method
does not modify. -/
def runGeneratedCommands (w : Seedr) : List Choice × Seedr :=
  (w.generatedCommands, w)

/-! Concrete schemas, child references and runs used to instantiate the
claims. -/

/-- The sum of the .percent weights of a list of items, with the same
percent accessor chooseAmong uses. -/
def percentSum {α : Type} (percentOf : α → ℤ) (l : List α) : ℤ :=
  (l.map percentOf).sum

/-- A weighted child of weight 10. -/
def w10 : PossibilityChild := { title := "a", ctype := "Random", percent := 10 }

/-- A weighted child of weight 20. -/
def w20 : PossibilityChild := { title := "b", ctype := "Random", percent := 20 }

/-- A random stream whose one output 49/100 makes randomPercentage draw
50. -/
def rng49 : RNG := [⟨49, 100⟩]

/-- A registry whose only schema has no contents. -/
def possNoC : PossContainer := [("X", { width := 1, height := 1 })]

/-- A Final child reference whose source resolves to a schema that has no
contents. -/
def choice9 : PossibilityChild :=
  { title := "t", ctype := "Final", source := some "S" }

/-- A registry resolving choice9's source to a schema without contents. -/
def poss9 : PossContainer := [("S", { width := 3, height := 4 })]

/-- A Final child reference whose source resolves to a schema with
contents. -/
def choice9w : PossibilityChild :=
  { title := "t", ctype := "Final", source := some "S2" }

/-- A registry resolving choice9w's source to a schema with contents. -/
def poss9w : PossContainer :=
  [("S2", { width := 3, height := 4, contents := some {} })]

/-- The Certain-mode example schema of the spec: direction right, two
children of widths 40 and 60, no spacing. -/
def contents6 : Contents :=
  { direction := some .right, mode := "Certain",
    children := [{ title := "A40", ctype := "Known" },
                 { title := "A60", ctype := "Known" }] }

/-- The registry of the Certain-mode example. -/
def poss6 : PossContainer :=
  [("Parent", { width := 100, height := 50, contents := some contents6 }),
   ("A40", { width := 40, height := 50, contents := some {} }),
   ("A60", { width := 60, height := 50, contents := some {} })]

/-- The first child the Certain-mode example places: box [0, 40]. -/
def c6a : Choice :=
  Choice.mk ⟨"A40", "Known", ChildArgs.none, 40, 50, 50, 40, 0, 0⟩ Option.none

/-- The second child the Certain-mode example places: box [40, 100]. -/
def c6b : Choice :=
  Choice.mk ⟨"A60", "Known", ChildArgs.none, 60, 50, 50, 100, 0, 40⟩ Option.none

/-- A Known-typed child reference for the Repeat-mode failing input. -/
def childB : PossibilityChild := { title := "B", ctype := "Known" }

/-- The Repeat-mode failing input of claim C1: direction left, a single
terminal child of width 1, plain spacing 1. -/
def contentsA : Contents :=
  { direction := some .left, mode := "Repeat", children := [childB],
    spacing := some (.num 1) }

/-- The registry of the Repeat-mode failing input. -/
def possA : PossContainer :=
  [("A", { width := 1, height := 1, contents := some contentsA }),
   ("B", { width := 1, height := 1, contents := some {} })]

/-- The child the diverging Repeat loop places on every iteration: its left
edge, right + width = 11, lies beyond the right edge 10 of the box it was
placed into. -/
def escapedB : Choice :=
  Choice.mk ⟨"B", "Known", ChildArgs.none, 1, 1, 1, 10, 0, 11⟩ Option.none

/-- Random-mode contents with one fitting child and limit 1. -/
def cR : Contents :=
  { children := [{ title := "K", ctype := "Known", percent := 100 }],
    limit := 1 }

/-- The registry for the Random-mode limit example. -/
def possR : PossContainer :=
  [("K", { width := 10, height := 1, contents := some {} })]

/-- The one child the Random-mode limit example places. -/
def cK : Choice :=
  Choice.mk ⟨"K", "Known", ChildArgs.none, 10, 1, 1, 10, 0, 0⟩ Option.none

/-- Random-mode contents with one fitting child of width 4 and limit 1: a
box of width 10 admits two placements, so the second placement exceeds the
limit. -/
def cR2 : Contents :=
  { children := [{ title := "K2", ctype := "Known", percent := 100 }],
    limit := 1 }

/-- The registry for the limit-exceeding Random-mode run. -/
def possR2 : PossContainer :=
  [("K2", { width := 4, height := 1, contents := some {} })]

/-- The first child the limit-exceeding run places — and then discards. -/
def cK2a : Choice :=
  Choice.mk ⟨"K2", "Known", ChildArgs.none, 4, 1, 1, 4, 0, 0⟩ Option.none

/-- The second parsed child of that run, whose placement pushes the count
past the limit. -/
def bK2 : ChoiceBase := ⟨"K2", "Known", ChildArgs.none, 4, 1, 1, 8, 0, 4⟩

/-- The contents of the recursive schema R of the generateFull example. -/
def contents5R : Contents :=
  { direction := some .right, mode := "Certain",
    children := [{ title := "K", ctype := "Known" }] }

/-- The contents of the root schema of the generateFull example: one Known
child, then one Random child. -/
def contents5Root : Contents :=
  { direction := some .right, mode := "Certain",
    children := [{ title := "K", ctype := "Known" },
                 { title := "R", ctype := "Random" }] }

/-- The registry of the generateFull example. -/
def poss5 : PossContainer :=
  [("Root", { width := 10, height := 1, contents := some contents5Root }),
   ("K", { width := 1, height := 1, contents := some {} }),
   ("R", { width := 2, height := 1, contents := some contents5R })]

/-- The root command the generateFull example expands. -/
def root5 : Choice :=
  Choice.mk ⟨"Root", "Random", ChildArgs.none, 10, 1, 1, 10, 0, 0⟩ Option.none

/-- The Known child of the root in the generateFull example. -/
def k5a : Choice :=
  Choice.mk ⟨"K", "Known", ChildArgs.none, 1, 1, 1, 1, 0, 0⟩ Option.none

/-- The Known descendant reached through the Random child in the
generateFull example. -/
def k5b : Choice :=
  Choice.mk ⟨"K", "Known", ChildArgs.none, 1, 1, 1, 2, 0, 1⟩ Option.none

/-- A choice with an unrecognized type, used to instantiate the silent-skip
case of the generateFull walk. -/
def cOther : Choice :=
  Choice.mk ⟨"X", "Other", ChildArgs.none, 1, 1, 1, 1, 0, 0⟩ Option.none

/-! Helper lemmas shared by the claim theorems. -/

/-- The chooseAmong accumulation loop falls off the end (returns undefined)
whenever the drawn percentage strictly exceeds the running sum plus all
remaining (nonnegative) weights. -/
theorem chooseAmongLoop_eq_none {α : Type} (percentOf : α → ℤ) :
    ∀ (l : List α) (sum choice : ℤ),
      (∀ x ∈ l, 0 ≤ percentOf x) →
      sum + percentSum percentOf l < choice →
      chooseAmongLoop percentOf l sum choice = Option.none := by
  intro l
  induction l with
  | nil => intro sum choice _ _; rfl
  | cons c rest ih =>
    intro sum choice hnn hlt
    have hrest : 0 ≤ percentSum percentOf rest := by
      refine List.sum_nonneg ?_
      intro x hx
      obtain ⟨y, hy, rfl⟩ := List.mem_map.mp hx
      exact hnn y (List.mem_cons_of_mem _ hy)
    have hsum : percentSum percentOf (c :: rest) =
        percentOf c + percentSum percentOf rest := by
      simp [percentSum]
    rw [hsum] at hlt
    have hno : ¬ (choice ≤ sum + percentOf c) := by linarith
    rw [chooseAmongLoop, if_neg hno]
    refine ih (sum + percentOf c) choice ?_ ?_
    · intro x hx; exact hnn x (List.mem_cons_of_mem _ hx)
    · linarith

/-! The claim theorems. -/

/-- Claim C2, counterexample.  Two weighted items of weights 10 and 20 (sum
30 < 100) and a random stream drawing the percentage 50 > 30: chooseAmong
returns undefined, not the last item — there is no catch-all. -/
theorem claim2_counterexample :
    (randomPercentage rng49).1 = 50 ∧
    percentSum PossibilityChild.percent [w10, w20] = 30 ∧
    (chooseAmong PossibilityChild.percent [w10, w20] rng49).1 = Option.none ∧
    (chooseAmong PossibilityChild.percent [w10, w20] rng49).1 ≠ some w20 := by
  refine ⟨rfl, rfl, rfl, ?_⟩
  decide

/-- Claim C2, amended.  For a list of two or more items with nonnegative
weights and a percentage draw strictly greater than the sum of all weights,
chooseAmong returns no item at all (undefined); callers must cope with
nothing being chosen (as the source's own remark on chooseAmongPosition
says), and the last item is not a catch-all. -/
theorem claim2_underweight_returns_none {α : Type} (percentOf : α → ℤ)
    (a b : α) (rest : List α) (rng : RNG) :
    (∀ x ∈ a :: b :: rest, 0 ≤ percentOf x) →
    percentSum percentOf (a :: b :: rest) < (randomPercentage rng).1 →
    (chooseAmong percentOf (a :: b :: rest) rng).1 = Option.none := by
  intro hnn hlt
  show chooseAmongLoop percentOf (a :: b :: rest) 0 (randomPercentage rng).1 =
    Option.none
  refine chooseAmongLoop_eq_none percentOf _ 0 _ hnn ?_
  linarith

/-- Claim C2, witness: the amended theorem applied to the concrete
counterexample input. -/
theorem claim2_witness :
    (∀ x ∈ [w10, w20], 0 ≤ PossibilityChild.percent x) ∧
    percentSum PossibilityChild.percent [w10, w20] < (randomPercentage rng49).1 ∧
    (chooseAmong PossibilityChild.percent [w10, w20] rng49).1 = Option.none :=
  ⟨by decide, by decide,
   claim2_underweight_returns_none PossibilityChild.percent w10 w20 [] rng49
     (by decide) (by decide)⟩

/-- Claim C4: generate on a name absent from the registry fails with the
schema-not-found error, and on a registered schema without contents fails
with the empty-contents error; both are returned directly by generate (for
every positive fuel, before any child generation touches the position or the
random stream). -/
theorem claim4_generate_errors :
    ∀ (poss : PossContainer) (fuel : Nat) (name : String) (position : Pos)
      (rng : RNG),
      (lookupPoss poss name = Option.none →
        generate poss (fuel + 1) name position rng =
          .error (.schemaNotFound name)) ∧
      (∀ schema, lookupPoss poss name = some schema →
        schema.contents = Option.none →
        generate poss (fuel + 1) name position rng =
          .error (.emptyContents name)) := by
  intro poss fuel name position rng
  constructor
  · intro h
    simp only [generate, h]
  · intro schema h hc
    simp only [generate, h, hc]

/-- Claim C4, witness: a registry holding only a contents-less schema X.
Looking up the absent name Y fails with schema-not-found; generating X fails
with empty-contents. -/
theorem claim4_witness :
    lookupPoss possNoC "Y" = Option.none ∧
    generate possNoC 1 "Y" ⟨1, 1, 0, 0⟩ [] = .error (.schemaNotFound "Y") ∧
    lookupPoss possNoC "X" = some { width := 1, height := 1 } ∧
    generate possNoC 1 "X" ⟨1, 1, 0, 0⟩ [] = .error (.emptyContents "X") :=
  ⟨rfl, (claim4_generate_errors possNoC 0 "Y" ⟨1, 1, 0, 0⟩ []).1 rfl, rfl,
   (claim4_generate_errors possNoC 0 "X" ⟨1, 1, 0, 0⟩ []).2 _ rfl rfl⟩

/-- Claim C6: the Certain-mode example.  A schema with direction right and
two terminal children of widths 40 and 60 (spacing 0), generated into the
box with left 0 and right 100, places child one at [0, 40] and child two at
[40, 100], and the returned envelope spans left 0 to right 100. -/
theorem claim6_certain_layout :
    generate poss6 1 "Parent" ⟨50, 100, 0, 0⟩ [] =
      .ok (some (⟨50, 100, 0, 0⟩, [c6a, c6b]), []) ∧
    c6a.base.left = 0 ∧ c6a.base.right = 40 ∧
    c6b.base.left = 40 ∧ c6b.base.right = 100 :=
  ⟨rfl, rfl, rfl, rfl, rfl⟩

/-- Claim C8: parseSpacing yields 0 on an absent spacing and on the plain
number 0, and returns every plain number unchanged, never consuming a random
draw (the stream comes back untouched in all three cases). -/
theorem claim8_parseSpacing_identity :
    ∀ (rng : RNG) (n : ℤ),
      parseSpacing Option.none rng = .ok (0, rng) ∧
      parseSpacing (some (.num 0)) rng = .ok (0, rng) ∧
      parseSpacing (some (.num n)) rng = .ok (n, rng) := by
  intro rng n
  refine ⟨rfl, rfl, ?_⟩
  by_cases h : n = 0
  · subst h; rfl
  · simp [parseSpacing, h]

/-- Claim C9, counterexample.  A Final child whose source resolves in the
registry, but to a schema without contents: parseChoiceFinal crashes (the
JavaScript reads argumentMap off an undefined contents) instead of returning
a Known node pinned to the position. -/
theorem claim9_counterexample :
    choice9.source = some "S" ∧
    lookupPoss poss9 "S" = some { width := 3, height := 4 } ∧
    parseChoiceFinal poss9 {} choice9 ⟨5, 6, 0, 0⟩ (some .right) =
      .error .typeError :=
  ⟨rfl, rfl, rfl⟩

/-- Claim C9, amended.  For a Final child whose source resolves in the
registry to a schema that has contents, parseChoiceFinal returns a node of
type Known (never the child's own type, so it is never recursively expanded)
whose width and height are the source schema's fixed measurements and whose
four edges equal the current position exactly. -/
theorem claim9_final_pins_position :
    ∀ (poss : PossContainer) (parent : Contents) (choice : PossibilityChild)
      (position : Pos) (direction : Option Dir) (src : String)
      (schema : Possibility) (sc : Contents),
      choice.source = some src →
      lookupPoss poss src = some schema →
      schema.contents = some sc →
      ∃ b, parseChoiceFinal poss parent choice position direction = .ok b ∧
        b.ctype = "Known" ∧ b.width = schema.width ∧ b.height = schema.height ∧
        b.top = position.top ∧ b.right = position.right ∧
        b.bottom = position.bottom ∧ b.left = position.left := by
  intro poss parent choice position direction src schema sc hsrc hlook hc
  simp only [parseChoiceFinal, hsrc, hlook, hc]
  exact ⟨_, rfl, rfl, rfl, rfl, rfl, rfl, rfl, rfl⟩

/-- Claim C9, witness: the amended theorem applied to a source schema of
width 3 and height 4 with contents, at the position (7, 9, 2, 3). -/
theorem claim9_witness :
    ∃ b, parseChoiceFinal poss9w {} choice9w ⟨7, 9, 2, 3⟩ (some .right) =
        .ok b ∧
      b.ctype = "Known" ∧ b.width = 3 ∧ b.height = 4 ∧
      b.top = 7 ∧ b.right = 9 ∧ b.bottom = 2 ∧ b.left = 3 :=
  claim9_final_pins_position poss9w {} choice9w ⟨7, 9, 2, 3⟩ (some .right)
    "S2" { width := 3, height := 4, contents := some {} } {} rfl rfl rfl

/-- Claim C1: the Repeat-mode loop run on the failing input — direction
left, a single terminal child of width 1 and spacing 1, starting box with
left 0 and right 10 — never terminates: for every fuel bound, at every
wrapped index start, for every accumulator, random stream and recursive
generator, the loop runs out of fuel instead of stopping.  Each iteration
places the child at left = right + width = 11 (the leading-edge formula adds
the size on the negative directions), the fit check still passes, and the
shrink step moves the cursor's right edge to child.left - spacing = 10, so
the cursor never loses room and the loop never stops. -/
theorem claim1_repeat_left_nonterminating :
    ∀ (gen : GenFn) (fuel : Nat) (acc : List Choice) (rng : RNG),
      repeatGo possA gen contentsA [childB] (some .left) (some (.num 1)) fuel
        0 acc ⟨1, 10, 0, 0⟩ rng = .error .fuelOut := by
  intro gen fuel
  induction fuel with
  | zero => intro acc rng; rfl
  | succ fuel ih => intro acc rng; exact ih (acc ++ [escapedB]) rng

/-- The Random-mode loop invariant behind claim C3: with a configured
(nonzero) limit and an accumulator within the limit, a run that returns a
children list keeps it within the limit — the iteration that would first
exceed it discards everything instead of returning the shorter list. -/
theorem randomGo_limit_le :
    ∀ (fuel : Nat) (poss : PossContainer) (contents : Contents)
      (direction : Option Dir) (spacing : Option Spacing) (acc : List Choice)
      (position : Pos) (rng : RNG) (l : List Choice) (p : Pos) (r : RNG),
      contents.limit ≠ 0 → (acc.length : ℤ) ≤ contents.limit →
      randomGo poss contents direction spacing fuel acc position rng =
        .ok (some l, p, r) →
      (l.length : ℤ) ≤ contents.limit := by
  intro fuel
  induction fuel with
  | zero =>
    intro poss contents direction spacing acc position rng l p r _ _ h
    exact absurd h (by simp [randomGo])
  | succ fuel ih =>
    intro poss contents direction spacing acc position rng l p r hlim hacc h
    rw [randomGo] at h
    split at h
    · split at h
      · exact absurd h (by simp)
      · obtain ⟨h1, -, -⟩ := by simpa using h
        subst h1; exact hacc
      · split at h
        · exact absurd h (by simp)
        · dsimp only at h
          split at h
          · exact absurd h (by simp)
          · rename_i hcond
            refine ih poss contents direction spacing _ _ _ l p r hlim ?_ h
            have hle := not_lt.mp (not_and.mp hcond hlim)
            simpa using hle
    · obtain ⟨h1, -, -⟩ := by simpa using h
      subst h1; exact hacc

/-- Claim C3: with a configured (nonzero) contents.limit, the Random-mode
loop iteration whose placement first pushes the accumulated children count
beyond the limit returns no result at all — the entire accumulated list,
including every child placed before the limit was hit, is discarded
(first conjunct, for every registry, contents, cursor, stream and
accumulator); concretely, a whole run whose box admits two placements under
limit 1 returns undefined rather than the first placed child (second
conjunct); and consequently a run that does return a children list never
returns one longer than a configured positive limit (third conjunct). -/
theorem claim3_random_limit_discard :
    (∀ (poss : PossContainer) (contents : Contents) (direction : Option Dir)
       (spacing : Option Spacing) (fuel : Nat) (acc : List Choice)
       (position : Pos) (rng : RNG) (b : ChoiceBase) (position' : Pos)
       (rng' rng'' : RNG),
       positionIsNotEmpty position direction = true →
       generateChild poss contents position direction rng = .ok (some b, rng') →
       shrinkPositionByChild position b direction spacing rng' =
         .ok (position', rng'') →
       contents.limit ≠ 0 →
       contents.limit < ((acc ++ [Choice.mk b Option.none]).length : ℤ) →
       randomGo poss contents direction spacing (fuel + 1) acc position rng =
         .ok (Option.none, position', rng'')) ∧
    generateChildrenRandom possR2 5 cR2 ⟨1, 10, 0, 0⟩ (some .right)
      (some (.num 0)) [] = .ok (Option.none, ⟨1, 10, 0, 8⟩, []) ∧
    (∀ (poss : PossContainer) (loopFuel : Nat) (contents : Contents)
       (position : Pos) (direction : Option Dir) (spacing : Option Spacing)
       (rng : RNG) (l : List Choice) (p : Pos) (r : RNG),
       0 < contents.limit →
       generateChildrenRandom poss loopFuel contents position direction spacing
         rng = .ok (some l, p, r) →
       (l.length : ℤ) ≤ contents.limit) := by
  refine ⟨?_, rfl, ?_⟩
  · intro poss contents direction spacing fuel acc position rng b position'
      rng' rng'' h1 h2 h3 h4 h5
    rw [randomGo, if_pos h1, h2]
    dsimp only
    rw [h3]
    dsimp only
    rw [if_pos ⟨h4, h5⟩]
  · intro poss loopFuel contents position direction spacing rng l p r hpos h
    refine randomGo_limit_le loopFuel poss contents direction spacing [] position
      rng l p r (by omega) (by simp; omega) h

/-- Claim C3, witness: the discard conjunct applied at the second iteration
of the limit-exceeding run — the accumulator already holds the first placed
child, the second placement pushes the count to 2 > limit 1, and the loop
returns undefined, discarding the first child — together with the bound
conjunct applied to a run with limit 1 that returns its single placed
child. -/
theorem claim3_witness :
    (randomGo possR2 cR2 (some .right) (some (.num 0)) 1 [cK2a] ⟨1, 10, 0, 4⟩
       [] = .ok (Option.none, ⟨1, 10, 0, 8⟩, [])) ∧
    (([cK] : List Choice).length : ℤ) ≤ cR.limit :=
  ⟨claim3_random_limit_discard.1 possR2 cR2 (some .right) (some (.num 0)) 0
     [cK2a] ⟨1, 10, 0, 4⟩ [] bK2 ⟨1, 10, 0, 8⟩ [] [] rfl rfl rfl (by decide)
     (by decide),
   claim3_random_limit_discard.2.2 possR 3 cR ⟨1, 10, 0, 0⟩ (some .right)
     (some (.num 0)) [] [cK] ⟨1, 10, 0, 10⟩ [] (by decide) rfl⟩

/-- Claim C5: the generateFull walk over a generated children list appends a
Known child to the shared accumulator in place, recursively expands a Random
child, and silently skips a child of any other type; and on the concrete
spec example — a root expanding to one Known child plus one Random child
whose own expansion yields one Known descendant — the accumulator receives
exactly the root's Known child followed by the descendant, in depth-first
order. -/
theorem claim5_generateFull_walk :
    (∀ (gf : Choice → GenState → Except JsError GenState) (c : Choice)
       (rest : List Choice) (st : GenState),
       c.ctype = "Known" →
       generateFullGo gf (c :: rest) st =
         generateFullGo gf rest
           { st with generatedCommands := st.generatedCommands ++ [c] }) ∧
    (∀ (gf : Choice → GenState → Except JsError GenState) (c : Choice)
       (rest : List Choice) (st : GenState),
       c.ctype = "Random" →
       generateFullGo gf (c :: rest) st =
         match gf c st with
         | .error e => .error e
         | .ok st' => generateFullGo gf rest st') ∧
    (∀ (gf : Choice → GenState → Except JsError GenState) (c : Choice)
       (rest : List Choice) (st : GenState),
       c.ctype ≠ "Known" → c.ctype ≠ "Random" →
       generateFullGo gf (c :: rest) st = generateFullGo gf rest st) ∧
    generateFull poss5 3 root5 ⟨[], []⟩ = .ok ⟨[], [k5a, k5b]⟩ := by
  refine ⟨?_, ?_, ?_, rfl⟩
  · intro gf c rest st h
    rw [generateFullGo, if_pos h]
  · intro gf c rest st h
    have hne : c.ctype ≠ "Known" := by rw [h]; decide
    rw [generateFullGo, if_neg hne, if_pos h]
  · intro gf c rest st h h'
    rw [generateFullGo, if_neg h, if_neg h']

/-- Claim C5, witness: the walk lemmas applied at concrete children — a
Known child is appended, a Random child goes through the recursive call, a
child of another type is skipped. -/
theorem claim5_witness :
    (generateFullGo (generateFull poss5 1) [k5a] ⟨[], []⟩ =
      generateFullGo (generateFull poss5 1) [] ⟨[], [k5a]⟩) ∧
    (generateFullGo (generateFull poss5 3) [root5] ⟨[], []⟩ =
      match generateFull poss5 3 root5 ⟨[], []⟩ with
      | .error e => .error e
      | .ok st' => generateFullGo (generateFull poss5 3) [] st') ∧
    (generateFullGo (generateFull poss5 1) [cOther] ⟨[], []⟩ =
      generateFullGo (generateFull poss5 1) [] ⟨[], []⟩) :=
  ⟨claim5_generateFull_walk.1 (generateFull poss5 1) k5a [] ⟨[], []⟩ rfl,
   claim5_generateFull_walk.2.1 (generateFull poss5 3) root5 [] ⟨[], []⟩ rfl,
   (claim5_generateFull_walk.2.2.1 (generateFull poss5 1) cOther [] ⟨[], []⟩
     (by decide) (by decide))⟩

/-- Claim C7: the whole generation pass is a pure function of the registry,
the fuel, the root schema and the instance state (random stream plus
accumulator) — two runs over equal states produce equal outcomes, so
replaying the same draw sequence reproduces the identical output and
accumulator.  In this embedding every effect of the source (the injected
random source and the shared accumulator) is explicit state, so no other
input exists for the result to depend on. -/
theorem claim7_determinism :
    ∀ (poss : PossContainer) (fuel : Nat) (schema : Choice)
      (st st' : GenState),
      st.rand = st'.rand → st.generatedCommands = st'.generatedCommands →
      generateFull poss fuel schema st = generateFull poss fuel schema st' := by
  intro poss fuel schema st st' h1 h2
  cases st; cases st'
  cases h1; cases h2
  rfl

/-- Claim C7, witness: two runs of the generateFull example from equal
states coincide. -/
theorem claim7_witness :
    generateFull poss5 3 root5 ⟨[], [k5a]⟩ =
      generateFull poss5 3 root5 ⟨[], [k5a]⟩ :=
  claim7_determinism poss5 3 root5 ⟨[], [k5a]⟩ ⟨[], [k5a]⟩ rfl rfl

/-- Claim C10: a generate call alone leaves the generatedCommands
accumulator unchanged (the code reached from generate never references it;
only generateFull appends to it); clearGeneratedCommands empties the
accumulator; and runGeneratedCommands hands the accumulator to the
onPlacement callback as is, clearing and modifying nothing. -/
theorem claim10_accumulator_frame :
    (∀ (fuel : Nat) (w : Seedr) (name : String) (position : Pos)
       (r : Option GenRes × Seedr),
       Seedr.generate fuel w name position = .ok r →
       r.2.generatedCommands = w.generatedCommands) ∧
    (∀ w : Seedr, (clearGeneratedCommands w).generatedCommands = []) ∧
    (∀ w : Seedr, runGeneratedCommands w = (w.generatedCommands, w)) := by
  refine ⟨?_, fun _ => rfl, fun _ => rfl⟩
  intro fuel w name position r h
  unfold Seedr.generate at h
  split at h
  · exact absurd h (by simp)
  · cases h; rfl

/-- Claim C10, witness: a generate call run on an instance whose accumulator
already holds a command; the result state still holds exactly it. -/
theorem claim10_witness :
    Seedr.generate 1 ⟨poss6, [], [c6a]⟩ "Parent" ⟨50, 100, 0, 0⟩ =
      .ok ((some (⟨50, 100, 0, 0⟩, [c6a, c6b]), ⟨poss6, [], [c6a]⟩)) ∧
    ((some (⟨50, 100, 0, 0⟩, [c6a, c6b]),
      (⟨poss6, [], [c6a]⟩ : Seedr)) : Option GenRes × Seedr).2.generatedCommands =
      (⟨poss6, [], [c6a]⟩ : Seedr).generatedCommands :=
  ⟨rfl,
   claim10_accumulator_frame.1 1 ⟨poss6, [], [c6a]⟩ "Parent" ⟨50, 100, 0, 0⟩
     _ rfl⟩

end WorldSeedr
